import Mathlib

/-!
# Verification of the coral language registration bridge

Shallow embedding of `packages/tree-sitter-coral/bindings/node/binding.cc`,
the single source file of the repository.  The C++ source reads:

    Napi::Object Init(Napi::Env env, Napi::Object exports) {
        exports["name"] = Napi::String::New(env, "coral");
        auto language = Napi::External<TSLanguage>::New(env, tree_sitter_coral());
        exports["language"] = language;
        return exports;
    }

The bridge performs three observable steps, in source order: write the
property `name`, call the external entry point `tree_sitter_coral()`, write
the property `language` with the returned handle wrapped (untransformed) in a
`Napi::External`.  We model the exports object as an association list of
string keys to values, the returned handle as an optional address (`none`
models the NULL pointer), and `Init` as the run of its three-step trace.  A
second, reference-level model (`InitRef`) places the exports object in a
store of live objects, so that identity of the returned reference and the
frame of the mutation can be stated.
-/

namespace Coral

/-- A `TSLanguage *` pointer value as the bridge sees it: `none` models the
NULL pointer, `some a` models a non-null address `a`.  The pointee is opaque
to the bridge, which never dereferences or frees it. -/
abbrev TSLanguagePtr := Option Nat

/-- A JavaScript value stored into the exports object, restricted to the two
shapes the bridge produces: a `Napi::String` and a `Napi::External<TSLanguage>`
(which wraps a raw pointer without transforming it). -/
inductive NapiValue where
  | str (s : String)
  | extRef (p : TSLanguagePtr)
deriving DecidableEq, Repr

/-- A `Napi::Object` as an association list from property names to values, in
JavaScript insertion order: assignment to an existing key overwrites it in
place, assignment to a fresh key appends it. -/
abbrev NapiObject := List (String × NapiValue)

/-- Property assignment `o[k] = v`: overwrite the first binding of `k` if one
exists, otherwise append a new binding at the end. -/
def objSet : NapiObject → String → NapiValue → NapiObject
  | [], k, v => [(k, v)]
  | (k', v') :: rest, k, v =>
      if k' = k then (k, v) :: rest else (k', v') :: objSet rest k v

/-- Property read `o[k]`: the first binding of `k`, if any. -/
def objGet : NapiObject → String → Option NapiValue
  | [], _ => none
  | (k', v') :: rest, k => if k' = k then some v' else objGet rest k

/-- The keys of the object, in insertion order. -/
def objKeys (o : NapiObject) : List String := o.map Prod.fst

/-- One observable step of `Init`: a property assignment on the exports
object, or the call to the external grammar entry point. -/
inductive InitStep where
  | setProp (k : String) (v : NapiValue)
  | callTreeSitterCoral
deriving DecidableEq, Repr

/-- The sequence of steps `Init` performs, in source order (lines 8 to 10 of
`binding.cc`): write `name`, call `tree_sitter_coral()`, write `language`
with the returned handle `p` wrapped in an `External`. -/
def initSteps (p : TSLanguagePtr) : List InitStep :=
  [ InitStep.setProp "name" (NapiValue.str "coral"),
    InitStep.callTreeSitterCoral,
    InitStep.setProp "language" (NapiValue.extRef p) ]

/-- Effect of one step on the exports object.  The call to the external entry
point does not touch the exports object. -/
def applyStep (o : NapiObject) : InitStep → NapiObject
  | InitStep.setProp k v => objSet o k v
  | InitStep.callTreeSitterCoral => o

/-- Run a list of steps on the exports object, left to right. -/
def runSteps (o : NapiObject) : List InitStep → NapiObject
  | [] => o
  | s :: rest => runSteps (applyStep o s) rest

/-- The `Init` routine of `binding.cc`, parameterised by the value `p` that
the external entry point `tree_sitter_coral()` returns (the entry point is
defined outside this repository; the bridge only forwards its result). -/
def Init (p : TSLanguagePtr) (exports : NapiObject) : NapiObject :=
  runSteps exports (initSteps p)

/-- Modelled from the spec: the exports container the host runtime supplies
at module load is a fresh, empty object (the host module-loading machinery is
outside this repository; spec Scenario 1 records that a fresh load starts
from an empty container and ends with exactly the two exported keys). -/
def hostSuppliedExports : NapiObject := []

/-- A reference into the store of live objects. -/
abbrev ObjRef := Nat

/-- The store of live JavaScript objects, indexed by `ObjRef`. -/
abbrev Store := List NapiObject

/-- Read the object a reference designates (an out-of-range reference reads
as the empty object). -/
def storeRead (σ : Store) (r : ObjRef) : NapiObject := σ.getD r []

/-- Reference-level model of `Init`: the exports object is a reference `r`
into the store; `Init` updates the referenced object in place and, per
`return exports;`, hands back the very same reference. -/
def InitRef (p : TSLanguagePtr) (r : ObjRef) (σ : Store) : ObjRef × Store :=
  (r, σ.set r (Init p (storeRead σ r)))

/-! ## Helper lemmas -/

theorem Init_eq (p : TSLanguagePtr) (e : NapiObject) :
    Init p e =
      objSet (objSet e "name" (NapiValue.str "coral")) "language"
        (NapiValue.extRef p) := rfl

theorem objGet_objSet_self (o : NapiObject) (k : String) (v : NapiValue) :
    objGet (objSet o k v) k = some v := by
  induction o with
  | nil => simp [objSet, objGet]
  | cons hd tl ih =>
      obtain ⟨k', v'⟩ := hd
      by_cases h : k' = k
      · simp [objSet, objGet, h]
      · simp [objSet, objGet, h, ih]

theorem objGet_objSet_of_ne (o : NapiObject) (k k' : String) (v : NapiValue)
    (h : k' ≠ k) : objGet (objSet o k v) k' = objGet o k' := by
  have hk : ¬(k = k') := fun hc => h hc.symm
  induction o with
  | nil => simp [objSet, objGet, hk]
  | cons hd tl ih =>
      obtain ⟨a, b⟩ := hd
      by_cases ha : a = k
      · subst ha
        simp [objSet, objGet, hk]
      · simp [objSet, objGet, ha, ih]

theorem init_get_name (p : TSLanguagePtr) (e : NapiObject) :
    objGet (Init p e) "name" = some (NapiValue.str "coral") := by
  rw [Init_eq, objGet_objSet_of_ne _ _ _ _ (by decide), objGet_objSet_self]

theorem init_get_language (p : TSLanguagePtr) (e : NapiObject) :
    objGet (Init p e) "language" = some (NapiValue.extRef p) := by
  rw [Init_eq, objGet_objSet_self]

theorem storeRead_set_self (σ : Store) (r : ObjRef) (x : NapiObject)
    (h : r < σ.length) : storeRead (σ.set r x) r = x := by
  induction σ generalizing r with
  | nil => simp at h
  | cons hd tl ih =>
      cases r with
      | zero => simp [storeRead]
      | succ n =>
          simp only [List.set, storeRead, List.getD, List.getElem?_cons_succ]
          exact ih n (by simpa using h)

theorem storeRead_set_ne (σ : Store) (r r' : ObjRef) (x : NapiObject)
    (h : r' ≠ r) : storeRead (σ.set r x) r' = storeRead σ r' := by
  induction σ generalizing r r' with
  | nil => simp [List.set]
  | cons hd tl ih =>
      cases r with
      | zero =>
          cases r' with
          | zero => exact absurd rfl h
          | succ m => simp [storeRead]
      | succ n =>
          cases r' with
          | zero => simp [storeRead]
          | succ m =>
              simp only [List.set, storeRead, List.getD, List.getElem?_cons_succ]
              exact ih n m fun hc => h (congrArg Nat.succ hc)

/-! ## Claims -/

/-- C1: for every exports container passed to `Init` and every value the
external entry point returns, after `Init` returns the container maps the key
`name` to the string `coral`, regardless of prior contents. -/
theorem C1_init_name_coral (p : TSLanguagePtr) (e : NapiObject) :
    objGet (Init p e) "name" = some (NapiValue.str "coral") :=
  init_get_name p e

/-- C2: handle pass-through — the value stored under `language` is exactly
the handle returned by `tree_sitter_coral()`, wrapped with no transformation;
in particular it is non-null whenever the entry point returns non-null. -/
theorem C2_init_language_passthrough (p : TSLanguagePtr) (e : NapiObject) :
    objGet (Init p e) "language" = some (NapiValue.extRef p) ∧
      (p.isSome →
        ∃ a, objGet (Init p e) "language" = some (NapiValue.extRef (some a))) := by
  refine ⟨init_get_language p e, fun hp => ?_⟩
  obtain ⟨a, rfl⟩ := Option.isSome_iff_exists.mp hp
  exact ⟨a, init_get_language (some a) e⟩

/-- C2 witness at a concrete non-null handle and empty container. -/
theorem C2_witness :
    objGet (Init (some 1) []) "language" = some (NapiValue.extRef (some 1)) ∧
      ∃ a, objGet (Init (some 1) []) "language" =
        some (NapiValue.extRef (some a)) :=
  ⟨(C2_init_language_passthrough (some 1) []).1,
    (C2_init_language_passthrough (some 1) []).2 rfl⟩

/-- C3: after a successful load — `Init` called once on the host-supplied
(fresh, empty) exports container — the container holds exactly the keys
`name` and `language`, no more and no fewer. -/
theorem C3_init_keys_exact (p : TSLanguagePtr) :
    objKeys (Init p hostSuppliedExports) = ["name", "language"] := by
  simp [Init_eq, hostSuppliedExports, objSet, objKeys]

/-- C4: `Init` returns the very reference it was given (identity, not a
copy), and the referenced object is now populated with the two entries. -/
theorem C4_initRef_identity (p : TSLanguagePtr) (r : ObjRef) (σ : Store)
    (h : r < σ.length) :
    (InitRef p r σ).1 = r ∧
      objGet (storeRead (InitRef p r σ).2 r) "name" =
        some (NapiValue.str "coral") ∧
      objGet (storeRead (InitRef p r σ).2 r) "language" =
        some (NapiValue.extRef p) := by
  refine ⟨rfl, ?_, ?_⟩ <;>
    simp only [InitRef, storeRead_set_self _ _ _ h, init_get_name,
      init_get_language]

/-- C4 witness: a one-object store holding an empty exports object. -/
theorem C4_witness :
    (InitRef (some 1) 0 [[]]).1 = 0 ∧
      objGet (storeRead (InitRef (some 1) 0 [[]]).2 0) "name" =
        some (NapiValue.str "coral") ∧
      objGet (storeRead (InitRef (some 1) 0 [[]]).2 0) "language" =
        some (NapiValue.extRef (some 1)) :=
  C4_initRef_identity (some 1) 0 [[]] (by decide)

/-- C5: frame property — `Init` mutates no store slot other than the exports
reference it was given; every other live object is unchanged. -/
theorem C5_initRef_frame (p : TSLanguagePtr) (r : ObjRef) (σ : Store)
    (r' : ObjRef) (h : r' ≠ r) :
    storeRead (InitRef p r σ).2 r' = storeRead σ r' :=
  storeRead_set_ne σ r r' _ h

/-- C5 witness: a second object in the store is untouched by `Init`. -/
theorem C5_witness :
    storeRead (InitRef (some 1) 0 [[], [("x", NapiValue.str "y")]]).2 1 =
      storeRead [[], [("x", NapiValue.str "y")]] 1 :=
  C5_initRef_frame (some 1) 0 [[], [("x", NapiValue.str "y")]] 1 (by decide)

/-- C6 counterexample to the claim as stated.  First bundle: when the entry
point returns NULL (`none`), after `Init` returns the descriptor is fully
observable (both keys present) yet the stored handle is null — so the handle
is not non-null at every observability point.  Second bundle: after the first
step of `Init` the `name` part of the descriptor is already published while
the external entry point has not yet been called — so the bridge does publish
part of the descriptor before the entry point returns. -/
theorem C6_cex :
    ("name" ∈ objKeys (Init none hostSuppliedExports) ∧
      "language" ∈ objKeys (Init none hostSuppliedExports) ∧
      objGet (Init none hostSuppliedExports) "language" =
        some (NapiValue.extRef none)) ∧
    ("name" ∈ objKeys (runSteps hostSuppliedExports ((initSteps none).take 1)) ∧
      InitStep.callTreeSitterCoral ∉ (initSteps none).take 1) := by
  decide

/-- C6 (amended): at every intermediate point of `Init` at which the handle
entry `language` is observable, the external entry point has already returned
and the stored handle is exactly its return value (hence non-null whenever
that return value is non-null); the `name` part of the descriptor is,
however, published before the call, and the handle is null when the entry
point returns null. -/
theorem C6_language_publish_order (p : TSLanguagePtr) (i : Nat)
    (h : "language" ∈
      objKeys (runSteps hostSuppliedExports ((initSteps p).take i))) :
    InitStep.callTreeSitterCoral ∈ (initSteps p).take i ∧
      objGet (runSteps hostSuppliedExports ((initSteps p).take i)) "language" =
        some (NapiValue.extRef p) := by
  match i with
  | 0 =>
      simp [initSteps, hostSuppliedExports, runSteps, objKeys] at h
  | 1 =>
      simp [initSteps, hostSuppliedExports, runSteps, applyStep, objSet,
        objKeys] at h
  | 2 =>
      simp [initSteps, hostSuppliedExports, runSteps, applyStep, objSet,
        objKeys] at h
  | (n + 3) =>
      have ht : (initSteps p).take (n + 3) = initSteps p := by
        simp [initSteps]
      rw [ht]
      exact ⟨by simp [initSteps],
        by simp [initSteps, hostSuppliedExports, runSteps, applyStep, objSet,
          objGet]⟩

/-- C6 witness: at the end of the trace with a non-null handle, the entry
point has been called and the published handle equals its return value. -/
theorem C6_witness :
    InitStep.callTreeSitterCoral ∈ (initSteps (some 1)).take 3 ∧
      objGet (runSteps hostSuppliedExports ((initSteps (some 1)).take 3))
        "language" = some (NapiValue.extRef (some 1)) :=
  C6_language_publish_order (some 1) 3 (by decide)

/-- C7: idempotence — two invocations of `Init` yield the same `name` value,
and under the hypothesis that the external entry point is idempotent/cached
(it returns the same handle both times) the same `language` value, whatever
the two containers were. -/
theorem C7_init_idempotent (p₁ p₂ : TSLanguagePtr) (e₁ e₂ : NapiObject)
    (h : p₁ = p₂) :
    objGet (Init p₁ e₁) "name" = objGet (Init p₂ e₂) "name" ∧
      objGet (Init p₁ e₁) "language" = objGet (Init p₂ e₂) "language" := by
  subst h
  rw [init_get_name, init_get_name, init_get_language, init_get_language]
  exact ⟨rfl, rfl⟩

/-- C7 witness: two loads with a cached entry point and different prior
containers agree on both exported values. -/
theorem C7_witness :
    objGet (Init (some 2) []) "name" =
        objGet (Init (some 2) [("k", NapiValue.str "v")]) "name" ∧
      objGet (Init (some 2) []) "language" =
        objGet (Init (some 2) [("k", NapiValue.str "v")]) "language" :=
  C7_init_idempotent (some 2) (some 2) [] [("k", NapiValue.str "v")] rfl

/-- C8: no error surfaced, no validation — `Init` is a total function of the
entry-point result; even a NULL return is stored under `language` unchanged,
and every possible return value is stored unchanged. -/
theorem C8_init_no_validation (e : NapiObject) :
    objGet (Init none e) "language" = some (NapiValue.extRef none) ∧
      ∀ p : TSLanguagePtr,
        objGet (Init p e) "language" = some (NapiValue.extRef p) :=
  ⟨init_get_language none e, fun p => init_get_language p e⟩

/-- C9: step order — whenever the external entry point has been called, the
`name` entry is already written (with value `coral`); and at no intermediate
state of `Init` on the host-supplied container is the `language` key present
while the `name` key is absent. -/
theorem C9_init_step_order (p : TSLanguagePtr) (i : Nat) :
    (InitStep.callTreeSitterCoral ∈ (initSteps p).take i →
        objGet (runSteps hostSuppliedExports ((initSteps p).take i)) "name" =
          some (NapiValue.str "coral")) ∧
      ("language" ∈
          objKeys (runSteps hostSuppliedExports ((initSteps p).take i)) →
        "name" ∈
          objKeys (runSteps hostSuppliedExports ((initSteps p).take i))) := by
  match i with
  | 0 =>
      constructor <;> intro h <;>
        simp [initSteps, hostSuppliedExports, runSteps, objKeys] at h
  | 1 =>
      constructor <;> intro h
      · simp [initSteps] at h
      · simp [initSteps, hostSuppliedExports, runSteps, applyStep, objSet,
          objKeys] at h
  | 2 =>
      constructor <;> intro h
      · simp [initSteps, hostSuppliedExports, runSteps, applyStep, objSet,
          objGet]
      · simp [initSteps, hostSuppliedExports, runSteps, applyStep, objSet,
          objKeys] at h
  | (n + 3) =>
      have ht : (initSteps p).take (n + 3) = initSteps p := by
        simp [initSteps]
      rw [ht]
      constructor <;> intro h <;>
        simp [initSteps, hostSuppliedExports, runSteps, applyStep, objSet,
          objGet, objKeys]

/-- C9 witness: at the final state the call has occurred, `name` is set, and
both keys are present. -/
theorem C9_witness :
    objGet (runSteps hostSuppliedExports ((initSteps (some 1)).take 3))
        "name" = some (NapiValue.str "coral") ∧
      "name" ∈
        objKeys (runSteps hostSuppliedExports ((initSteps (some 1)).take 3)) :=
  ⟨(C9_init_step_order (some 1) 3).1 (by decide),
    (C9_init_step_order (some 1) 3).2 (by decide)⟩

/-- C10: noninterference — `Init` assigns `name` and `language`
unconditionally without reading prior contents: for any two input containers
the values stored under those keys after `Init` coincide, so pre-existing
entries are overwritten and do not influence the result. -/
theorem C10_init_noninterference (p : TSLanguagePtr) (e₁ e₂ : NapiObject) :
    objGet (Init p e₁) "name" = objGet (Init p e₂) "name" ∧
      objGet (Init p e₁) "language" = objGet (Init p e₂) "language" := by
  rw [init_get_name, init_get_name, init_get_language, init_get_language]
  exact ⟨rfl, rfl⟩

end Coral
